import Mathlib

/-!
Shallow embedding of the hours-reconciliation core of the padifood backend
(`src/validation_hours.py`) and proofs about it.

Modelling conventions:
- Python strings are Lean `String`s; `str.strip`, `str.lower`, `str.split()`,
  single-character `str.replace` and code-point string comparison are embedded
  as executable functions over the underlying character lists.
- Python `dict`s are association lists with first-match lookup; insertion-order
  update (`d[k] = v`) is `updList`, matching `defaultdict` accumulation.
- Python floats are idealised as exact rationals `ℚ`.  The arithmetic used by
  the program (sum, difference) is embedded via `mkRat`-based operations
  `qadd`/`qsub`, proved below to agree with the field operations of `ℚ`;
  `round(x, 2)` is embedded as exact round-half-to-even at two decimals.
- `csv.DictReader` input is a header row plus data rows (`CsvTable`); the
  per-row dict is the fieldnames zipped with the row's cells.
-/

/-- Drop whitespace characters from both ends of a character list. -/
def trimChars (l : List Char) : List Char :=
  (l.dropWhile Char.isWhitespace).rdropWhile Char.isWhitespace

/-- Embedding of Python `str.strip()`: drop whitespace from both ends. -/
def pyStrip (s : String) : String :=
  ⟨trimChars s.data⟩

/-- Embedding of Python `str.lower()` (ASCII letters, which is all the
program's fixed column names and the claims' inputs use). -/
def pyLower (s : String) : String :=
  ⟨s.data.map Char.toLower⟩

/-- Embedding of Python `s.replace(a, b)` for a single-character pattern
(the program only replaces `"-"` by `" "` and `","` by `"."`). -/
def replaceChar (a b : Char) (s : String) : String :=
  ⟨s.data.map fun c => if c = a then b else c⟩

/-- Worker for `pySplit`: scan the characters, accumulating the current word
in reverse. -/
def splitWSAux : List Char → List Char → List String
  | [], cur => if cur = [] then [] else [⟨cur.reverse⟩]
  | c :: rest, cur =>
    if c.isWhitespace then
      if cur = [] then splitWSAux rest []
      else ⟨cur.reverse⟩ :: splitWSAux rest []
    else splitWSAux rest (c :: cur)

/-- Embedding of Python `str.split()` with no argument: split on runs of
whitespace, discarding empty tokens. -/
def pySplit (s : String) : List String :=
  splitWSAux s.data []

/-- Code-point lexicographic comparison of character lists, the order Python
uses to compare (and hence sort) strings. -/
def charsLe : List Char → List Char → Bool
  | [], _ => true
  | _ :: _, [] => false
  | a :: as, b :: bs =>
    if a.toNat < b.toNat then true
    else if b.toNat < a.toNat then false
    else charsLe as bs

/-- Python string `<=`, as a relation suitable for `List.insertionSort`. -/
def strLe (a b : String) : Prop :=
  charsLe a.data b.data = true

instance : DecidableRel strLe :=
  fun a b => inferInstanceAs (Decidable (charsLe a.data b.data = true))

/-- Embedding of Python `sorted(...)` on a list of strings. -/
def pySortStrings (l : List String) : List String :=
  List.insertionSort strLe l

/-- The token list out of which `normalize_name` builds its key: lowercase,
replace hyphens by spaces, split on whitespace. -/
def nameTokens (name : String) : List String :=
  pySplit (replaceChar '-' ' ' (pyLower name))

/-- Embedding of `normalize_name` (validation_hours.py, line 31):
`" ".join(sorted(name.lower().replace("-", " ").split()))`. -/
def normalize_name (name : String) : String :=
  String.intercalate " " (pySortStrings (nameTokens name))

/-- Embedding of `normalize_date` (line 96): `date_str.strip().split(" ")[0]`,
i.e. the part of the stripped string before the first space. -/
def normalize_date (s : String) : String :=
  ⟨(pyStrip s).data.takeWhile fun c => c ≠ ' '⟩

/-- Value of a run of decimal digit characters. -/
def digitsVal (cs : List Char) : Nat :=
  cs.foldl (fun n c => n * 10 + (c.toNat - 48)) 0

/-- Sum of two rationals computed through `mkRat`; proved below to equal
`a + b`.  Used to embed Python float accumulation (`+=`) executably. -/
def qadd (a b : ℚ) : ℚ :=
  mkRat (a.num * b.den + b.num * a.den) (a.den * b.den)

/-- Difference of two rationals computed through `mkRat`; proved below to
equal `a - b`. -/
def qsub (a b : ℚ) : ℚ :=
  mkRat (a.num * b.den - b.num * a.den) (a.den * b.den)

/-- Exponent part of `pyFloat?`: `e`/`E` followed by an optional sign and
digits, scaling the already-parsed mantissa `num / den`. -/
def pyFloatExp (num : Int) (den : Nat) (cs : List Char) : Option ℚ :=
  let (epos, cs1) :=
    match cs with
    | '-' :: rest => (false, rest)
    | '+' :: rest => (true, rest)
    | _ => (true, cs)
  let ed := cs1.takeWhile Char.isDigit
  let rest := cs1.dropWhile Char.isDigit
  if ed.isEmpty || !rest.isEmpty then none
  else if epos then some (mkRat (num * (10 : Int) ^ digitsVal ed) den)
  else some (mkRat num (den * 10 ^ digitsVal ed))

/-- Embedding of Python `float(s)` on decimal notation, as the exact rational
value of the literal: optional surrounding whitespace and sign, decimal
digits with an optional fractional part and an optional exponent; `none`
when the string is not a float literal (Python raises `ValueError`, which
every caller in the program turns into skipping the row or cell). -/
def pyFloat? (s : String) : Option ℚ :=
  let cs := (pyStrip s).data
  let (sgn, cs1) :=
    match cs with
    | '-' :: rest => ((-1 : Int), rest)
    | '+' :: rest => ((1 : Int), rest)
    | _ => ((1 : Int), cs)
  let ipart := cs1.takeWhile Char.isDigit
  let cs2 := cs1.dropWhile Char.isDigit
  let (fpart, cs3) :=
    match cs2 with
    | '.' :: rest => (rest.takeWhile Char.isDigit, rest.dropWhile Char.isDigit)
    | _ => ([], cs2)
  if ipart.isEmpty && fpart.isEmpty then none
  else
    let num : Int := sgn * ((digitsVal ipart) * 10 ^ fpart.length + digitsVal fpart)
    let den : Nat := 10 ^ fpart.length
    match cs3 with
    | [] => some (mkRat num den)
    | 'e' :: rest => pyFloatExp num den rest
    | 'E' :: rest => pyFloatExp num den rest
    | _ => none

/-- Round `a / b` (with `b ≠ 0`) to the nearest integer, ties to even — the
rounding mode of Python's `round` on exact values. -/
def intRoundHalfEven (a : Int) (b : Nat) : Int :=
  let q := a.fdiv b
  let r := a.fmod b
  if 2 * r < (b : Int) then q
  else if (b : Int) < 2 * r then q + 1
  else if q % 2 = 0 then q else q + 1

/-- Embedding of Python `round(x, 2)` on the exact-rational idealisation of a
float: round-half-to-even at two decimal places. -/
def round2 (x : ℚ) : ℚ :=
  mkRat (intRoundHalfEven (x.num * 100) x.den) 100

/-- First-match lookup in an association list — Python `dict` lookup (the
program's dicts never carry duplicate keys). -/
def alookup {α : Type} : List (String × α) → String → Option α
  | [], _ => none
  | (k, v) :: rest, key => if k = key then some v else alookup rest key

/-- `d[key] = f(d.get(key, dflt))`: update the binding in place when the key
is present, else append it — Python dict insertion-order semantics, covering
`defaultdict` read-modify-write accumulation. -/
def updList {α : Type} : List (String × α) → String → α → (α → α) → List (String × α)
  | [], key, dflt, f => [(key, f dflt)]
  | (k, v) :: rest, key, dflt, f =>
    if k = key then (k, f v) :: rest else (k, v) :: updList rest key dflt f

/-- Weekly aggregate: `{normalized_name: {category: hours}}`. -/
abbrev WeekAgg := List (String × List (String × ℚ))

/-- Daily aggregate: `{normalized_name: {date: {category: hours}}}`. -/
abbrev DayAgg := List (String × List (String × List (String × ℚ)))

/-- `totals[name][cat] += v` on a `defaultdict(lambda: defaultdict(float))`. -/
def addW (m : WeekAgg) (name cat : String) (v : ℚ) : WeekAgg :=
  updList m name [] fun inner => updList inner cat 0 fun x => qadd x v

/-- `totals[name][date][cat] += v` on the three-level `defaultdict`. -/
def addD (m : DayAgg) (name date cat : String) (v : ℚ) : DayAgg :=
  updList m name [] fun byDate =>
    updList byDate date [] fun inner => updList inner cat 0 fun x => qadd x v

/-- Two-level lookup in a weekly aggregate: `factuur.get(name, {}).get(cat)`. -/
def wget (m : WeekAgg) (name cat : String) : Option ℚ :=
  alookup ((alookup m name).getD []) cat

/-- Three-level lookup in a daily aggregate. -/
def dget (m : DayAgg) (name date cat : String) : Option ℚ :=
  alookup ((alookup ((alookup m name).getD []) date).getD []) cat

/-- A parsed tabular input file as `csv.DictReader` sees it: the header row
(fieldnames) and the data rows. -/
structure CsvTable where
  header : List String
  rows : List (List String)
deriving DecidableEq

/-- The dict `csv.DictReader` yields for one data row: fieldnames zipped with
the row's cells, a later duplicate fieldname overwriting an earlier one. -/
def rowDict (header cells : List String) : List (String × String) :=
  (header.zip cells).foldl (fun d p => updList d p.1 "" fun _ => p.2) []

/-- `row.get(col, "")`. -/
def rget (row : List (String × String)) (col : String) : String :=
  (alookup row col).getD ""

/-- The stripped value of one named field of one raw row, as every loader
computes it: `row.get(col, "").strip()`. -/
def fieldOf (header cells : List String) (col : String) : String :=
  pyStrip (rget (rowDict header cells) col)

/-- The seven kloklijst hour-type columns (validation_hours.py, lines 20-28). -/
def KLOKLIJST_HOUR_COLS : List String :=
  ["Norm uren Dag", "T133 Dag", "T135 Dag", "T200 Dag",
   "OW140 Week", "OW180 Dag", "OW200 Dag"]

/-- One data row of `load_factuur_hours` (lines 43-53): skip when a required
field is blank after stripping or the hours fail to parse after comma-to-dot
substitution, else accumulate under the normalized name and the category. -/
def factuurStep (header : List String) (totals : WeekAgg) (cells : List String) : WeekAgg :=
  let naam := fieldOf header cells "Naam"
  let code := fieldOf header cells "Code toeslag"
  let urenStr := fieldOf header cells "Totaal uren"
  if naam = "" ∨ code = "" ∨ urenStr = "" then totals
  else
    match pyFloat? (replaceChar ',' '.' urenStr) with
    | none => totals
    | some uren => addW totals (normalize_name naam) code uren

/-- Embedding of `load_factuur_hours` (lines 36-54), from the parsed table to
the weekly aggregate. -/
def load_factuur_hours (t : CsvTable) : WeekAgg :=
  t.rows.foldl (factuurStep t.header) []

/-- One data row of `load_factuur_hours_by_date` (lines 108-119): same rule
with `Datum` also required, truncated by `normalize_date`. -/
def factuurDayStep (header : List String) (totals : DayAgg) (cells : List String) : DayAgg :=
  let naam := fieldOf header cells "Naam"
  let code := fieldOf header cells "Code toeslag"
  let datum := fieldOf header cells "Datum"
  let urenStr := fieldOf header cells "Totaal uren"
  if naam = "" ∨ code = "" ∨ datum = "" ∨ urenStr = "" then totals
  else
    match pyFloat? (replaceChar ',' '.' urenStr) with
    | none => totals
    | some uren => addD totals (normalize_name naam) (normalize_date datum) code uren

/-- Embedding of `load_factuur_hours_by_date` (lines 101-120). -/
def load_factuur_hours_by_date (t : CsvTable) : DayAgg :=
  t.rows.foldl (factuurDayStep t.header) []

/-- The body of the per-column loop of one kloklijst row (lines 82-91): skip
a blank or unparseable cell, and store a parsed value only when non-zero. -/
def kloklijstColStep (header cells : List String) (norm : String) (totals : WeekAgg)
    (col : String) : WeekAgg :=
  if fieldOf header cells col = "" then totals
  else
    match pyFloat? (replaceChar ',' '.' (fieldOf header cells col)) with
    | none => totals
    | some v => if v ≠ 0 then addW totals norm col v else totals

/-- The per-column accumulation of one kloklijst row over the seven
recognized hour columns. -/
def kloklijstCols (header cells : List String) (norm : String) (totals : WeekAgg) : WeekAgg :=
  KLOKLIJST_HOUR_COLS.foldl (kloklijstColStep header cells norm) totals

/-- One row of `load_kloklijst_hours` (lines 69-91): a non-blank name cell
updates the carried current name; rows before any name are skipped; rows with
a blank `Datum` (summary rows) are skipped; otherwise the row's hour columns
are accumulated under the normalized current name. -/
def kloklijstStep (header : List String) (st : Option String × WeekAgg)
    (cells : List String) : Option String × WeekAgg :=
  match (if fieldOf header cells "Naam" = "" then st.1
         else some (fieldOf header cells "Naam")) with
  | none => (none, st.2)
  | some cn =>
    if fieldOf header cells "Datum" = "" then (some cn, st.2)
    else (some cn, kloklijstCols header cells (normalize_name cn) st.2)

/-- Embedding of `load_kloklijst_hours` (lines 57-93).  Note line 67: the
fieldnames are stripped before any row is read. -/
def load_kloklijst_hours (t : CsvTable) : WeekAgg :=
  (t.rows.foldl (kloklijstStep (t.header.map pyStrip)) (none, [])).2

/-- The body of the per-column loop of one kloklijst row at daily granularity
(lines 151-160). -/
def kloklijstDayColStep (header cells : List String) (norm dateKey : String)
    (totals : DayAgg) (col : String) : DayAgg :=
  if fieldOf header cells col = "" then totals
  else
    match pyFloat? (replaceChar ',' '.' (fieldOf header cells col)) with
    | none => totals
    | some v => if v ≠ 0 then addD totals norm dateKey col v else totals

/-- The per-column accumulation of one kloklijst row at daily granularity. -/
def kloklijstDayCols (header cells : List String) (norm dateKey : String)
    (totals : DayAgg) : DayAgg :=
  KLOKLIJST_HOUR_COLS.foldl (kloklijstDayColStep header cells norm dateKey) totals

/-- One row of `load_kloklijst_hours_by_date` (lines 137-160). -/
def kloklijstDayStep (header : List String) (st : Option String × DayAgg)
    (cells : List String) : Option String × DayAgg :=
  match (if fieldOf header cells "Naam" = "" then st.1
         else some (fieldOf header cells "Naam")) with
  | none => (none, st.2)
  | some cn =>
    if fieldOf header cells "Datum" = "" then (some cn, st.2)
    else (some cn, kloklijstDayCols header cells (normalize_name cn)
      (normalize_date (fieldOf header cells "Datum")) st.2)

/-- Embedding of `load_kloklijst_hours_by_date` (lines 123-162); the
fieldnames are stripped here as well (line 135). -/
def load_kloklijst_hours_by_date (t : CsvTable) : DayAgg :=
  (t.rows.foldl (kloklijstDayStep (t.header.map pyStrip)) (none, [])).2

/-- One output row of `build_rows`: name, optional date, category, the two
rounded hour values (`none` is the blank CSV cell), the rounded difference,
and the status string. -/
structure CompRow where
  naam : String
  datum : Option String
  code : String
  factuur : Option ℚ
  kloklijst : Option ℚ
  verschil : Option ℚ
  status : String
deriving DecidableEq

/-- `sorted(set(xs) | set(ys))` for key lists: sorted, duplicate-free union. -/
def sortedKeys (xs ys : List String) : List String :=
  pySortStrings ((xs ++ ys).dedup)

/-- Classification of one `(name[, date], category)` cell (lines 192-234):
only-in-kloklijst, only-in-factuur, or present on both sides with the
difference rounded to two decimals and `OK` exactly when it rounds to zero. -/
def buildCell (name : String) (date : Option String) (cat : String)
    (fCats kCats : List (String × ℚ)) : CompRow :=
  match alookup fCats cat with
  | none =>
      { naam := name, datum := date, code := cat, factuur := none,
        kloklijst := (alookup kCats cat).map round2, verschil := none,
        status := "ALLEEN IN KLOKLIJST" }
  | some f =>
    match alookup kCats cat with
    | none =>
        { naam := name, datum := date, code := cat, factuur := some (round2 f),
          kloklijst := none, verschil := none, status := "ALLEEN IN FACTUUR" }
    | some k =>
        let diff := round2 (qsub f k)
        { naam := name, datum := date, code := cat, factuur := some (round2 f),
          kloklijst := some (round2 k), verschil := some diff,
          status := if diff = 0 then "OK" else "VERSCHIL" }

/-- The rows produced for one `(name[, date])` pair: one classified cell per
category in the sorted union of the two sides' categories (lines 190-234). -/
def rowsForCats (name : String) (date : Option String)
    (fCats kCats : List (String × ℚ)) : List CompRow :=
  (sortedKeys (fCats.map Prod.fst) (kCats.map Prod.fst)).map
    fun cat => buildCell name date cat fCats kCats

/-- Embedding of `build_rows(factuur, kloklijst, include_date=False)`
(lines 165-236), the produced row list. -/
def build_rows (factuur kloklijst : WeekAgg) : List CompRow :=
  (sortedKeys (factuur.map Prod.fst) (kloklijst.map Prod.fst)).flatMap
    fun name =>
      rowsForCats name none ((alookup factuur name).getD [])
        ((alookup kloklijst name).getD [])

/-- Embedding of `build_rows(factuur, kloklijst, include_date=True)`: per
name, iterate the sorted union of dates, then classify per category. -/
def build_rows_daily (factuur kloklijst : DayAgg) : List CompRow :=
  (sortedKeys (factuur.map Prod.fst) (kloklijst.map Prod.fst)).flatMap
    fun name =>
      let fByDate := (alookup factuur name).getD []
      let kByDate := (alookup kloklijst name).getD []
      (sortedKeys (fByDate.map Prod.fst) (kByDate.map Prod.fst)).flatMap
        fun date =>
          rowsForCats name (some date) ((alookup fByDate date).getD [])
            ((alookup kByDate date).getD [])

/-- The running per-status counters of `build_rows` (lines 173, 210, 221,
225): each produced row increments exactly the counter of its status, so the
final counters are the per-status row tallies. -/
structure StatusCounts where
  ok : Nat
  verschil : Nat
  only_factuur : Nat
  only_kloklijst : Nat
deriving DecidableEq

/-- The counters as tallied over the produced rows. -/
def countsOf (rows : List CompRow) : StatusCounts :=
  { ok := rows.countP fun r => r.status == "OK"
    verschil := rows.countP fun r => r.status == "VERSCHIL"
    only_factuur := rows.countP fun r => r.status == "ALLEEN IN FACTUUR"
    only_kloklijst := rows.countP fun r => r.status == "ALLEEN IN KLOKLIJST" }

/-- `sum(counts.values())`. -/
def sumCounts (c : StatusCounts) : Nat :=
  c.ok + c.verschil + c.only_factuur + c.only_kloklijst

/-- How often a `(name, date?, category)` key occurs among output rows. -/
def keyCount (rows : List CompRow) (n : String) (d : Option String) (c : String) : Nat :=
  rows.countP fun r => r.naam == n && r.datum == d && r.code == c

/-- The dict returned by `run_validation` (lines 294-304). -/
structure ValidationResult where
  week : String
  inputFactuurFile : String
  inputKloklijstFile : String
  outputFileWeek : String
  outputFileDay : String
  rowsWeek : List CompRow
  rowsDay : List CompRow
  countsWeek : StatusCounts
  countsDay : StatusCounts
deriving DecidableEq

/-- The failure `run_validation` can raise: `FileNotFoundError` with its
message (lines 245-248). -/
inductive RunError where
  | fileNotFound (message : String)
deriving DecidableEq

/-- Resolved invoice input path (line 240). -/
def factuurPath (week : String) : String :=
  "formatted_input/" ++ week ++ " Padifood specificatie - Export Factuur.csv"

/-- Resolved timesheet input path (line 241). -/
def kloklijstPath (week : String) : String :=
  "formatted_input/" ++ week ++ " Kloklijst Padifood Otto Workforce.csv"

/-- Resolved weekly output path (line 242). -/
def outputPathWeek (week : String) : String :=
  "output/" ++ week ++ " validation_hours.csv"

/-- Resolved daily output path (line 243). -/
def outputPathDay (week : String) : String :=
  "output/" ++ week ++ " validation_hours_daily.csv"

/-- The filesystem visible to `run_validation`: resolved input path to parsed
table (a missing path is an absent file). -/
structure FileSys where
  files : List (String × CsvTable)

/-- Embedding of `run_validation` (lines 239-304).  The pair is the
error-or-result together with the output writes performed, in program order:
on a missing input file the run raises `FileNotFoundError` naming the path
before anything is loaded or written. -/
def run_validation (fs : FileSys) (week : String) :
    Except RunError ValidationResult × List (String × List CompRow) :=
  match alookup fs.files (factuurPath week) with
  | none =>
      (Except.error (RunError.fileNotFound ("Bestand niet gevonden: " ++ factuurPath week)), [])
  | some factuurTable =>
    match alookup fs.files (kloklijstPath week) with
    | none =>
        (Except.error (RunError.fileNotFound ("Bestand niet gevonden: " ++ kloklijstPath week)), [])
    | some kloklijstTable =>
      let factuur := load_factuur_hours factuurTable
      let kloklijst := load_kloklijst_hours kloklijstTable
      let factuurDaily := load_factuur_hours_by_date factuurTable
      let kloklijstDaily := load_kloklijst_hours_by_date kloklijstTable
      let rows := build_rows factuur kloklijst
      let rowsDaily := build_rows_daily factuurDaily kloklijstDaily
      (Except.ok
        { week := week
          inputFactuurFile := factuurPath week
          inputKloklijstFile := kloklijstPath week
          outputFileWeek := outputPathWeek week
          outputFileDay := outputPathDay week
          rowsWeek := rows
          rowsDay := rowsDaily
          countsWeek := countsOf rows
          countsDay := countsOf rowsDaily },
       [(outputPathWeek week, rows), (outputPathDay week, rowsDaily)])

/-- Decimal digit string of a natural number. -/
def natDigitsStr (n : Nat) : String :=
  ⟨Nat.toDigits 10 n⟩

/-- Decimal string of an integer, as Python `str(int)` prints it. -/
def intStr : Int → String
  | Int.ofNat n => natDigitsStr n
  | Int.negSucc n => "-" ++ natDigitsStr (n + 1)

/-- Embedding of `_fmt_value` (lines 307-310) on the string fields of a row:
a blank value renders as a dash. -/
def fmtValue (s : String) : String :=
  if s = "" then "-" else s

/-- Python `f"{number:.2f}".replace(".", ",")` on the exact-rational value:
two decimal places, comma separator. -/
def twoDec (q : ℚ) : String :=
  let n := intRoundHalfEven (q.num * 100) q.den
  let m := n.natAbs
  let frac := m % 100
  (if n < 0 then "-" else "") ++ natDigitsStr (m / 100) ++ ","
    ++ (if frac < 10 then "0" ++ natDigitsStr frac else natDigitsStr frac)

/-- Embedding of `_fmt_hours` (lines 313-322): dash for an absent value, an
integral value without decimals, otherwise two decimals with a comma. -/
def fmtHours : Option ℚ → String
  | none => "-"
  | some q => if q.den = 1 then intStr q.num else twoDec q

/-- The fixed all-OK email body (lines 330-342), parameterized only by the
week id. -/
def noDiscrepancyBody (week : String) : String :=
  String.intercalate "\n"
    ["Goedemorgen,", "",
     "Voor week " ++ week
       ++ " hebben we op bovenstaande factuur geen discrepanties gevonden met onze kloklijsten.",
     "", "Bedankt!"]

/-- One bullet line per non-OK weekly row (lines 353-375). -/
def mismatchLine (r : CompRow) : String :=
  let name := fmtValue r.naam
  let code := fmtValue r.code
  let f := fmtHours r.factuur
  let k := fmtHours r.kloklijst
  if r.status = "VERSCHIL" then
    "- Bij " ++ name ++ " staat " ++ f ++ " uur voor " ++ code
      ++ ", maar dit moet " ++ k ++ " uur zijn."
  else if r.status = "ALLEEN IN FACTUUR" then
    "- Bij " ++ name ++ " staat " ++ f ++ " uur voor " ++ code
      ++ " op de factuur, maar deze uren staan niet op onze kloklijsten."
  else if r.status = "ALLEEN IN KLOKLIJST" then
    "- Bij " ++ name ++ " staat " ++ k ++ " uur voor " ++ code
      ++ " op onze kloklijsten, maar deze uren ontbreken op de factuur."
  else
    "- Bij " ++ name ++ " is een discrepantie gevonden voor " ++ code
      ++ " (status: " ++ fmtValue r.status ++ ")."

/-- Embedding of `format_validation_email_body` (lines 325-378): it consumes
only the week id and the weekly row set of the result. -/
def format_validation_email_body (result : ValidationResult) : String :=
  let weekMismatches := result.rowsWeek.filter fun r => r.status != "OK"
  if weekMismatches = [] then noDiscrepancyBody result.week
  else
    String.intercalate "\n"
      (["Goedemorgen,", "",
        "Op bovenstaande factuur hebben we voor week " ++ result.week
          ++ " de volgende discrepanties gevonden met onze kloklijsten:"]
        ++ weekMismatches.map mismatchLine
        ++ ["", "Kan hier een correctie van worden gemaakt?", "", "Bedankt!"])

/-- What claim C1 states about one produced comparison row `r`, relative to
the two hour values `fv`/`kv` looked up for the row's key on the invoice and
timesheet sides: both present → rounded values, rounded difference, and `OK`
exactly when the difference rounds to zero; one side absent → the matching
only-in-one-side status with the other field blank. -/
def RowSpecAgainst (fv kv : Option ℚ) (r : CompRow) : Prop :=
  (∀ f k, fv = some f → kv = some k →
    r.factuur = some (round2 f) ∧ r.kloklijst = some (round2 k) ∧
    r.verschil = some (round2 (qsub f k)) ∧
    (r.status = "OK" ↔ round2 (qsub f k) = 0) ∧
    (r.status = "VERSCHIL" ↔ round2 (qsub f k) ≠ 0)) ∧
  (∀ k, fv = none → kv = some k →
    r.status = "ALLEEN IN KLOKLIJST" ∧ r.factuur = none ∧
    r.kloklijst = some (round2 k) ∧ r.verschil = none) ∧
  (∀ f, fv = some f → kv = none →
    r.status = "ALLEEN IN FACTUUR" ∧ r.kloklijst = none ∧
    r.factuur = some (round2 f) ∧ r.verschil = none)

/-- The column-`c` cell of a raw row is blank after stripping, unparseable,
or parses to exactly `0` — the three cases in which the kloklijst loaders
store nothing for that cell. -/
def ZeroishCell (header : List String) (c : String) (cells : List String) : Prop :=
  fieldOf header cells c = "" ∨
  pyFloat? (replaceChar ',' '.' (fieldOf header cells c)) = none ∨
  pyFloat? (replaceChar ',' '.' (fieldOf header cells c)) = some 0

instance (header : List String) (c : String) (cells : List String) :
    Decidable (ZeroishCell header c cells) :=
  inferInstanceAs (Decidable (fieldOf header cells c = "" ∨
    pyFloat? (replaceChar ',' '.' (fieldOf header cells c)) = none ∨
    pyFloat? (replaceChar ',' '.' (fieldOf header cells c)) = some 0))

/-- Example weekly invoice aggregate: Jane Doe, 8.5 hours of T135. -/
def exFactW : WeekAgg := [("doe jane", [("T135", mkRat 17 2)])]

/-- Example weekly timesheet aggregate: Doe Jane, 8 hours of T135. -/
def exKlokW : WeekAgg := [("doe jane", [("T135", 8)])]

/-- The single comparison row `build_rows exFactW exKlokW` produces. -/
def exRowW : CompRow :=
  { naam := "doe jane", datum := none, code := "T135",
    factuur := some (mkRat 17 2), kloklijst := some 8,
    verschil := some (mkRat 1 2), status := "VERSCHIL" }

/-- Example daily invoice aggregate. -/
def exFactD : DayAgg := [("doe jane", [("2025-12-15", [("T135", mkRat 17 2)])])]

/-- Example daily timesheet aggregate. -/
def exKlokD : DayAgg := [("doe jane", [("2025-12-15", [("T135", 8)])])]

/-- The single comparison row `build_rows_daily exFactD exKlokD` produces. -/
def exRowD : CompRow :=
  { naam := "doe jane", datum := some "2025-12-15", code := "T135",
    factuur := some (mkRat 17 2), kloklijst := some 8,
    verschil := some (mkRat 1 2), status := "VERSCHIL" }

/-- The forward-fill example table of the spec (§8): a named dated row, an
unnamed dated row, and an unnamed summary row with no date. -/
def exC2Table : CsvTable :=
  { header := ["Naam", "Datum", "Norm uren Dag"],
    rows := [["A", "2025-12-15", "8"], ["", "2025-12-16", "4"], ["", "", "999"]] }

/-- A timesheet whose `Norm uren Dag` cells are all zero-valued (`"0"` and
`"0,0"`) while `T133 Dag` carries real hours. -/
def exC5Table : CsvTable :=
  { header := ["Naam", "Datum", "Norm uren Dag", "T133 Dag"],
    rows := [["Ann", "2025-12-15", "0", "3"], ["", "2025-12-16", "0,0", "2"]] }

/-- A timesheet in which +4 and -4 in the same column cancel to a stored 0. -/
def exC10Table : CsvTable :=
  { header := ["Naam", "Datum", "Norm uren Dag"],
    rows := [["Ann", "2025-12-15", "4"], ["", "2025-12-16", "-4"]] }

/-- An invoice export whose header carries surrounding whitespace. -/
def exPaddedFact : CsvTable :=
  { header := [" Naam ", "Code toeslag", "Totaal uren"],
    rows := [["Jane Doe", "T1", "8"]] }

/-- The same invoice export with trimmed header names. -/
def exTrimmedFact : CsvTable :=
  { header := ["Naam", "Code toeslag", "Totaal uren"],
    rows := [["Jane Doe", "T1", "8"]] }

/-- A validation result whose weekly rows are all `OK`. -/
def exResultOK : ValidationResult :=
  { week := "202551", inputFactuurFile := "", inputKloklijstFile := "",
    outputFileWeek := "", outputFileDay := "",
    rowsWeek := [{ naam := "doe jane", datum := none, code := "T135",
                   factuur := some 8, kloklijst := some 8, verschil := some 0,
                   status := "OK" }],
    rowsDay := [], countsWeek := ⟨1, 0, 0, 0⟩, countsDay := ⟨0, 0, 0, 0⟩ }

/-- The same result with a different (non-empty, non-OK) daily row set. -/
def exResultOKAlt : ValidationResult :=
  { exResultOK with rowsDay := [exRowD], countsDay := ⟨0, 1, 0, 0⟩ }

theorem qadd_eq_add (a b : ℚ) : qadd a b = a + b :=
  (Rat.add_def' a b).symm

theorem qsub_eq_sub (a b : ℚ) : qsub a b = a - b :=
  (Rat.sub_def' a b).symm

theorem charsLe_total : ∀ as bs : List Char, charsLe as bs = true ∨ charsLe bs as = true := by
  intro as
  induction as with
  | nil => intro bs; left; rfl
  | cons a as ih =>
    intro bs
    cases bs with
    | nil => right; rfl
    | cons b bs =>
      rcases Nat.lt_trichotomy a.toNat b.toNat with h | h | h
      · left; simp [charsLe, h]
      · rcases ih bs with h2 | h2
        · left; simp [charsLe, h, h2, Nat.lt_irrefl]
        · right; simp [charsLe, h.symm, h2, Nat.lt_irrefl]
      · right; simp [charsLe, h]

theorem charsLe_trans :
    ∀ as bs cs : List Char, charsLe as bs = true → charsLe bs cs = true →
      charsLe as cs = true := by
  intro as
  induction as with
  | nil => intro bs cs _ _; rfl
  | cons a as ih =>
    intro bs cs h1 h2
    cases bs with
    | nil => simp [charsLe] at h1
    | cons b bs =>
      cases cs with
      | nil => simp [charsLe] at h2
      | cons c cs =>
        simp only [charsLe] at h1 h2 ⊢
        rcases Nat.lt_trichotomy a.toNat b.toNat with hab | hab | hab
        · rcases Nat.lt_trichotomy b.toNat c.toNat with hbc | hbc | hbc
          · simp [Nat.lt_trans hab hbc]
          · simp [hbc ▸ hab]
          · simp [Nat.lt_asymm hbc, hbc] at h2
        · rcases Nat.lt_trichotomy b.toNat c.toNat with hbc | hbc | hbc
          · simp [hab ▸ hbc]
          · have h1' : charsLe as bs = true := by simpa [hab, Nat.lt_irrefl] using h1
            have h2' : charsLe bs cs = true := by simpa [hbc, Nat.lt_irrefl] using h2
            simp [hab.trans hbc, Nat.lt_irrefl, ih bs cs h1' h2']
          · simp [Nat.lt_asymm hbc, hbc] at h2
        · simp [Nat.lt_asymm hab, hab] at h1

theorem charsLe_antisymm :
    ∀ as bs : List Char, charsLe as bs = true → charsLe bs as = true → as = bs := by
  intro as
  induction as with
  | nil =>
    intro bs h1 h2
    cases bs with
    | nil => rfl
    | cons b bs => simp [charsLe] at h2
  | cons a as ih =>
    intro bs h1 h2
    cases bs with
    | nil => simp [charsLe] at h1
    | cons b bs =>
      simp only [charsLe] at h1 h2
      rcases Nat.lt_trichotomy a.toNat b.toNat with hab | hab | hab
      · simp [Nat.lt_asymm hab, hab] at h2
      · have h1' : charsLe as bs = true := by simpa [hab, Nat.lt_irrefl] using h1
        have h2' : charsLe bs as = true := by simpa [hab, Nat.lt_irrefl] using h2
        have hc : a = b := by
          have h3 := congrArg Char.ofNat hab
          rwa [Char.ofNat_toNat, Char.ofNat_toNat] at h3
        rw [hc, ih bs h1' h2']
      · simp [Nat.lt_asymm hab, hab] at h1

theorem strLe_total (a b : String) : strLe a b ∨ strLe b a :=
  charsLe_total a.data b.data

theorem strLe_trans (a b c : String) : strLe a b → strLe b c → strLe a c :=
  charsLe_trans a.data b.data c.data

theorem strLe_antisymm (a b : String) : strLe a b → strLe b a → a = b := by
  intro h1 h2
  cases a with
  | mk da =>
    cases b with
    | mk db => exact congrArg String.mk (charsLe_antisymm da db h1 h2)

theorem pySortStrings_sorted (l : List String) : List.Sorted strLe (pySortStrings l) := by
  haveI : IsTotal String strLe := ⟨strLe_total⟩
  haveI : IsTrans String strLe := ⟨strLe_trans⟩
  exact List.sorted_insertionSort strLe l

theorem pySortStrings_perm (l : List String) : (pySortStrings l).Perm l :=
  List.perm_insertionSort strLe l

theorem pySortStrings_congr {l₁ l₂ : List String} (h : l₁.Perm l₂) :
    pySortStrings l₁ = pySortStrings l₂ := by
  haveI : IsAntisymm String strLe := ⟨strLe_antisymm⟩
  exact List.eq_of_perm_of_sorted
    ((pySortStrings_perm l₁).trans (h.trans (pySortStrings_perm l₂).symm))
    (pySortStrings_sorted l₁) (pySortStrings_sorted l₂)

theorem mem_sortedKeys {a : String} (xs ys : List String) :
    a ∈ sortedKeys xs ys ↔ a ∈ xs ∨ a ∈ ys := by
  unfold sortedKeys pySortStrings
  rw [List.mem_insertionSort, List.mem_dedup, List.mem_append]

theorem sortedKeys_nodup (xs ys : List String) : (sortedKeys xs ys).Nodup := by
  unfold sortedKeys pySortStrings
  exact ((List.perm_insertionSort strLe _).nodup_iff).mpr (List.nodup_dedup _)

theorem alookup_updList_self {α : Type} (m : List (String × α)) (k : String) (d : α)
    (f : α → α) : alookup (updList m k d f) k = some (f ((alookup m k).getD d)) := by
  induction m with
  | nil => simp [updList, alookup]
  | cons p rest ih =>
    obtain ⟨k₀, v⟩ := p
    by_cases h : k₀ = k
    · subst h; simp [updList, alookup]
    · simp [updList, alookup, h, ih]

theorem alookup_updList_ne {α : Type} (m : List (String × α)) (k : String) (d : α)
    (f : α → α) (k' : String) (h : k ≠ k') :
    alookup (updList m k d f) k' = alookup m k' := by
  induction m with
  | nil => simp [updList, alookup, h]
  | cons p rest ih =>
    obtain ⟨k₀, v⟩ := p
    by_cases h0 : k₀ = k
    · subst h0; simp [updList, alookup, h]
    · simp [updList, alookup, h0, ih]

theorem alookup_isSome_iff {α : Type} (m : List (String × α)) (k : String) :
    (alookup m k).isSome ↔ k ∈ m.map Prod.fst := by
  induction m with
  | nil => simp [alookup]
  | cons p rest ih =>
    obtain ⟨k₀, v⟩ := p
    by_cases h : k₀ = k
    · subst h; simp [alookup]
    · simp [alookup, h, ih, Ne.symm h]

theorem wget_addW_self (m : WeekAgg) (n c : String) (v : ℚ) :
    wget (addW m n c v) n c = some (qadd ((wget m n c).getD 0) v) := by
  unfold wget addW
  rw [alookup_updList_self, Option.getD_some, alookup_updList_self]

theorem wget_addW_ne (m : WeekAgg) (n c : String) (v : ℚ) (n' c' : String)
    (h : n ≠ n' ∨ c ≠ c') : wget (addW m n c v) n' c' = wget m n' c' := by
  unfold wget addW
  by_cases hn : n = n'
  · subst hn
    rcases h with h | h
    · exact absurd rfl h
    · rw [alookup_updList_self, Option.getD_some, alookup_updList_ne _ _ _ _ _ h]
  · rw [alookup_updList_ne _ _ _ _ _ hn]

theorem dget_addD_self (m : DayAgg) (n dt c : String) (v : ℚ) :
    dget (addD m n dt c v) n dt c = some (qadd ((dget m n dt c).getD 0) v) := by
  unfold dget addD
  rw [alookup_updList_self, Option.getD_some, alookup_updList_self, Option.getD_some,
    alookup_updList_self]

theorem dget_addD_ne (m : DayAgg) (n dt c : String) (v : ℚ) (n' dt' c' : String)
    (h : n ≠ n' ∨ dt ≠ dt' ∨ c ≠ c') :
    dget (addD m n dt c v) n' dt' c' = dget m n' dt' c' := by
  unfold dget addD
  by_cases hn : n = n'
  · subst hn
    by_cases hd : dt = dt'
    · subst hd
      rcases h with h | h | h
      · exact absurd rfl h
      · exact absurd rfl h
      · rw [alookup_updList_self, Option.getD_some, alookup_updList_self, Option.getD_some,
          alookup_updList_ne _ _ _ _ _ h]
    · rw [alookup_updList_self, Option.getD_some, alookup_updList_ne _ _ _ _ _ hd]
  · rw [alookup_updList_ne _ _ _ _ _ hn]

theorem buildCell_naam (name : String) (date : Option String) (cat : String)
    (fCats kCats : List (String × ℚ)) : (buildCell name date cat fCats kCats).naam = name := by
  cases hf : alookup fCats cat <;> cases hk : alookup kCats cat <;> simp [buildCell, hf, hk]

theorem buildCell_datum (name : String) (date : Option String) (cat : String)
    (fCats kCats : List (String × ℚ)) : (buildCell name date cat fCats kCats).datum = date := by
  cases hf : alookup fCats cat <;> cases hk : alookup kCats cat <;> simp [buildCell, hf, hk]

theorem buildCell_code (name : String) (date : Option String) (cat : String)
    (fCats kCats : List (String × ℚ)) : (buildCell name date cat fCats kCats).code = cat := by
  cases hf : alookup fCats cat <;> cases hk : alookup kCats cat <;> simp [buildCell, hf, hk]

theorem buildCell_status (name : String) (date : Option String) (cat : String)
    (fCats kCats : List (String × ℚ)) :
    (buildCell name date cat fCats kCats).status = "OK" ∨
    (buildCell name date cat fCats kCats).status = "VERSCHIL" ∨
    (buildCell name date cat fCats kCats).status = "ALLEEN IN FACTUUR" ∨
    (buildCell name date cat fCats kCats).status = "ALLEEN IN KLOKLIJST" := by
  cases hf : alookup fCats cat with
  | none => right; right; right; simp [buildCell, hf]
  | some f =>
    cases hk : alookup kCats cat with
    | none => right; right; left; simp [buildCell, hf, hk]
    | some k =>
      by_cases hd : round2 (qsub f k) = 0
      · left; simp [buildCell, hf, hk, hd]
      · right; left; simp [buildCell, hf, hk, hd]

theorem buildCell_spec (name : String) (date : Option String) (cat : String)
    (fCats kCats : List (String × ℚ)) :
    RowSpecAgainst (alookup fCats cat) (alookup kCats cat)
      (buildCell name date cat fCats kCats) := by
  unfold RowSpecAgainst
  cases hf : alookup fCats cat with
  | none =>
    cases hk : alookup kCats cat with
    | none =>
      exact ⟨fun f k h1 _ => by simp at h1, fun k h1 h2 => by simp at h2,
        fun f h1 _ => by simp at h1⟩
    | some k =>
      refine ⟨fun f k' h1 _ => by simp at h1, fun k' _ h2 => ?_,
        fun f h1 _ => by simp at h1⟩
      obtain rfl := Option.some.inj h2
      simp [buildCell, hf, hk]
  | some f =>
    cases hk : alookup kCats cat with
    | none =>
      refine ⟨fun f' k' _ h2 => by simp at h2, fun k' h1 _ => by simp at h1,
        fun f' h1 _ => ?_⟩
      obtain rfl := Option.some.inj h1
      simp [buildCell, hf, hk]
    | some k =>
      refine ⟨fun f' k' h1 h2 => ?_, fun k' h1 _ => by simp at h1,
        fun f' _ h2 => by simp at h2⟩
      obtain rfl := Option.some.inj h1
      obtain rfl := Option.some.inj h2
      refine ⟨by simp [buildCell, hf, hk], by simp [buildCell, hf, hk],
        by simp [buildCell, hf, hk], ?_, ?_⟩ <;>
        by_cases hd : round2 (qsub f k) = 0 <;> simp [buildCell, hf, hk, hd]

theorem mem_rowsForCats {r : CompRow} {name : String} {date : Option String}
    {fCats kCats : List (String × ℚ)} :
    r ∈ rowsForCats name date fCats kCats ↔
      ∃ cat ∈ sortedKeys (fCats.map Prod.fst) (kCats.map Prod.fst),
        buildCell name date cat fCats kCats = r := by
  simp [rowsForCats]

theorem mem_build_rows {r : CompRow} {f k : WeekAgg} :
    r ∈ build_rows f k ↔
      ∃ name ∈ sortedKeys (f.map Prod.fst) (k.map Prod.fst),
        r ∈ rowsForCats name none ((alookup f name).getD [])
          ((alookup k name).getD []) := by
  simp [build_rows]

theorem mem_build_rows_daily {r : CompRow} {f k : DayAgg} :
    r ∈ build_rows_daily f k ↔
      ∃ name ∈ sortedKeys (f.map Prod.fst) (k.map Prod.fst),
        ∃ date ∈ sortedKeys (((alookup f name).getD []).map Prod.fst)
            (((alookup k name).getD []).map Prod.fst),
          r ∈ rowsForCats name (some date)
            ((alookup ((alookup f name).getD []) date).getD [])
            ((alookup ((alookup k name).getD []) date).getD []) := by
  simp [build_rows_daily]

theorem countP_flatMap_zero {α β : Type} (p : β → Bool) (l : List α) (g : α → List β)
    (h : ∀ x ∈ l, (g x).countP p = 0) : (l.flatMap g).countP p = 0 := by
  induction l with
  | nil => rfl
  | cons a l ih =>
    rw [List.flatMap_cons, List.countP_append, h a (List.mem_cons_self a l),
      ih fun x hx => h x (List.mem_cons_of_mem _ hx)]

theorem countP_flatMap_one {α β : Type} (p : β → Bool) (l : List α) (g : α → List β)
    (x : α) (hnd : l.Nodup) (hx : x ∈ l) (h1 : (g x).countP p = 1)
    (h0 : ∀ y ∈ l, y ≠ x → (g y).countP p = 0) : (l.flatMap g).countP p = 1 := by
  induction l with
  | nil => cases hx
  | cons a l ih =>
    rw [List.flatMap_cons, List.countP_append]
    rcases List.mem_cons.mp hx with rfl | hx'
    · have hz : (l.flatMap g).countP p = 0 :=
        countP_flatMap_zero p l g fun y hy =>
          h0 y (List.mem_cons_of_mem _ hy)
            (fun hyx => (List.nodup_cons.mp hnd).1 (hyx ▸ hy))
      rw [h1, hz]
    · have ha : (g a).countP p = 0 :=
        h0 a (List.mem_cons_self a l) fun hax => by
          subst hax
          exact (List.nodup_cons.mp hnd).1 hx'
      rw [ha, ih (List.nodup_cons.mp hnd).2 hx'
        fun y hy hyx => h0 y (List.mem_cons_of_mem _ hy) hyx]

theorem sumCounts_countsOf (rows : List CompRow)
    (h : ∀ r ∈ rows, r.status = "OK" ∨ r.status = "VERSCHIL" ∨
      r.status = "ALLEEN IN FACTUUR" ∨ r.status = "ALLEEN IN KLOKLIJST") :
    sumCounts (countsOf rows) = rows.length := by
  induction rows with
  | nil => rfl
  | cons r rest ih =>
    have hr := h r (List.mem_cons_self r rest)
    have ih' := ih fun x hx => h x (List.mem_cons_of_mem _ hx)
    simp only [countsOf, sumCounts, List.countP_cons, List.length_cons] at ih' ⊢
    rcases hr with h1 | h1 | h1 | h1 <;> simp [h1] <;> omega

theorem keyCount_rowsForCats_ne (name : String) (date : Option String)
    (fCats kCats : List (String × ℚ)) (n : String) (d : Option String) (c : String)
    (h : name ≠ n ∨ date ≠ d) : keyCount (rowsForCats name date fCats kCats) n d c = 0 := by
  unfold keyCount
  rw [List.countP_eq_zero]
  intro r hr
  obtain ⟨cat, hc, rfl⟩ := mem_rowsForCats.mp hr
  rcases h with h | h <;>
    simp [buildCell_naam, buildCell_datum, buildCell_code, h]

theorem count_if_nodup (l : List String) (c : String) (hnd : l.Nodup) :
    (l.countP fun a => a == c) = if c ∈ l then 1 else 0 := by
  induction l with
  | nil => simp
  | cons a l ih =>
    rw [List.countP_cons]
    by_cases hac : a = c
    · subst hac
      have hna : a ∉ l := (List.nodup_cons.mp hnd).1
      simp [hna, ih (List.nodup_cons.mp hnd).2]
    · simp [hac, ih (List.nodup_cons.mp hnd).2, Ne.symm hac]

theorem keyCount_rowsForCats_self (name : String) (date : Option String)
    (fCats kCats : List (String × ℚ)) (c : String) :
    keyCount (rowsForCats name date fCats kCats) name date c =
      if c ∈ sortedKeys (fCats.map Prod.fst) (kCats.map Prod.fst) then 1 else 0 := by
  unfold keyCount rowsForCats
  rw [List.countP_map]
  have he : ((fun r : CompRow => r.naam == name && r.datum == date && r.code == c) ∘
      fun cat => buildCell name date cat fCats kCats) = fun cat => cat == c := by
    funext cat
    simp [Function.comp, buildCell_naam, buildCell_datum, buildCell_code]
  rw [he, count_if_nodup _ _ (sortedKeys_nodup _ _)]

theorem build_rows_statuses (f k : WeekAgg) :
    ∀ r ∈ build_rows f k, r.status = "OK" ∨ r.status = "VERSCHIL" ∨
      r.status = "ALLEEN IN FACTUUR" ∨ r.status = "ALLEEN IN KLOKLIJST" := by
  intro r hr
  obtain ⟨name, hn, hrc⟩ := mem_build_rows.mp hr
  obtain ⟨cat, hc, rfl⟩ := mem_rowsForCats.mp hrc
  exact buildCell_status name none cat _ _

theorem build_rows_daily_statuses (f k : DayAgg) :
    ∀ r ∈ build_rows_daily f k, r.status = "OK" ∨ r.status = "VERSCHIL" ∨
      r.status = "ALLEEN IN FACTUUR" ∨ r.status = "ALLEEN IN KLOKLIJST" := by
  intro r hr
  obtain ⟨name, hn, date, hd, hrc⟩ := mem_build_rows_daily.mp hr
  obtain ⟨cat, hc, rfl⟩ := mem_rowsForCats.mp hrc
  exact buildCell_status name (some date) cat _ _

theorem wget_isSome_name {m : WeekAgg} {n c : String} (h : (wget m n c).isSome) :
    (alookup m n).isSome := by
  by_contra h0
  rw [Option.not_isSome_iff_eq_none] at h0
  rw [wget, h0] at h
  simp [alookup] at h

theorem wget_isSome_cat {m : WeekAgg} {n c : String} (h : (wget m n c).isSome) :
    c ∈ ((alookup m n).getD []).map Prod.fst :=
  (alookup_isSome_iff _ _).mp h

theorem dget_isSome_name {m : DayAgg} {n d c : String} (h : (dget m n d c).isSome) :
    (alookup m n).isSome := by
  by_contra h0
  rw [Option.not_isSome_iff_eq_none] at h0
  rw [dget, h0] at h
  simp [alookup] at h

theorem dget_isSome_date {m : DayAgg} {n d c : String} (h : (dget m n d c).isSome) :
    (alookup ((alookup m n).getD []) d).isSome := by
  by_contra h0
  rw [Option.not_isSome_iff_eq_none] at h0
  rw [dget, h0] at h
  simp [alookup] at h

theorem dget_isSome_cat {m : DayAgg} {n d c : String} (h : (dget m n d c).isSome) :
    c ∈ ((alookup ((alookup m n).getD []) d).getD []).map Prod.fst :=
  (alookup_isSome_iff _ _).mp h

theorem keyCount_build_rows (f k : WeekAgg) (n c : String)
    (h : (wget f n c).isSome ∨ (wget k n c).isSome) :
    keyCount (build_rows f k) n none c = 1 := by
  have hnames : n ∈ sortedKeys (f.map Prod.fst) (k.map Prod.fst) := by
    rw [mem_sortedKeys]
    rcases h with h | h
    · exact Or.inl ((alookup_isSome_iff _ _).mp (wget_isSome_name h))
    · exact Or.inr ((alookup_isSome_iff _ _).mp (wget_isSome_name h))
  have hcat : c ∈ sortedKeys (((alookup f n).getD []).map Prod.fst)
      (((alookup k n).getD []).map Prod.fst) := by
    rw [mem_sortedKeys]
    rcases h with h | h
    · exact Or.inl (wget_isSome_cat h)
    · exact Or.inr (wget_isSome_cat h)
  unfold build_rows keyCount
  apply countP_flatMap_one _ _ _ n (sortedKeys_nodup _ _) hnames
  · have hs := keyCount_rowsForCats_self n none ((alookup f n).getD [])
      ((alookup k n).getD []) c
    unfold keyCount at hs
    rw [hs, if_pos hcat]
  · intro y hy hyn
    have hz := keyCount_rowsForCats_ne y none ((alookup f y).getD [])
      ((alookup k y).getD []) n none c (Or.inl hyn)
    unfold keyCount at hz
    exact hz

theorem keyCount_build_rows_daily (f k : DayAgg) (n d c : String)
    (h : (dget f n d c).isSome ∨ (dget k n d c).isSome) :
    keyCount (build_rows_daily f k) n (some d) c = 1 := by
  have hnames : n ∈ sortedKeys (f.map Prod.fst) (k.map Prod.fst) := by
    rw [mem_sortedKeys]
    rcases h with h | h
    · exact Or.inl ((alookup_isSome_iff _ _).mp (dget_isSome_name h))
    · exact Or.inr ((alookup_isSome_iff _ _).mp (dget_isSome_name h))
  have hdates : d ∈ sortedKeys (((alookup f n).getD []).map Prod.fst)
      (((alookup k n).getD []).map Prod.fst) := by
    rw [mem_sortedKeys]
    rcases h with h | h
    · exact Or.inl ((alookup_isSome_iff _ _).mp (dget_isSome_date h))
    · exact Or.inr ((alookup_isSome_iff _ _).mp (dget_isSome_date h))
  have hcat : c ∈ sortedKeys
      (((alookup ((alookup f n).getD []) d).getD []).map Prod.fst)
      (((alookup ((alookup k n).getD []) d).getD []).map Prod.fst) := by
    rw [mem_sortedKeys]
    rcases h with h | h
    · exact Or.inl (dget_isSome_cat h)
    · exact Or.inr (dget_isSome_cat h)
  unfold build_rows_daily keyCount
  apply countP_flatMap_one _ _ _ n (sortedKeys_nodup _ _) hnames
  · apply countP_flatMap_one _ _ _ d (sortedKeys_nodup _ _) hdates
    · have hs := keyCount_rowsForCats_self n (some d)
        ((alookup ((alookup f n).getD []) d).getD [])
        ((alookup ((alookup k n).getD []) d).getD []) c
      unfold keyCount at hs
      rw [hs, if_pos hcat]
    · intro y hy hyd
      have hz := keyCount_rowsForCats_ne n (some y)
        ((alookup ((alookup f n).getD []) y).getD [])
        ((alookup ((alookup k n).getD []) y).getD []) n (some d) c
        (Or.inr fun he => hyd (Option.some.inj he))
      unfold keyCount at hz
      exact hz
  · intro y hy hyn
    apply countP_flatMap_zero
    intro dt hdt
    have hz := keyCount_rowsForCats_ne y (some dt)
      ((alookup ((alookup f y).getD []) dt).getD [])
      ((alookup ((alookup k y).getD []) dt).getD []) n (some d) c (Or.inl hyn)
    unfold keyCount at hz
    exact hz

/-- C3: name normalization (lowercase, hyphens to spaces, split, sort, rejoin)
is invariant under word reordering, casing, and hyphen-for-space substitution:
`normalize_name "Jane Doe" = normalize_name "Doe Jane" = normalize_name
"doe-jane"`, and in general any two names whose token lists (after
lowercasing and hyphen replacement) are permutations of one another — which
covers reordered words, different casing, and hyphens for spaces — produce
the same key. -/
theorem C3_normalize_name_invariant :
    (normalize_name "Jane Doe" = normalize_name "Doe Jane" ∧
      normalize_name "Doe Jane" = normalize_name "doe-jane") ∧
    ∀ a b : String, (nameTokens a).Perm (nameTokens b) →
      normalize_name a = normalize_name b := by
  refine ⟨⟨by decide, by decide⟩, fun a b h => ?_⟩
  unfold normalize_name
  rw [pySortStrings_congr h]

/-- Witness for C3 at the concrete pair "Jane  Doe" / "doe-jane". -/
theorem C3_normalize_name_invariant_witness :
    (nameTokens "Jane  Doe").Perm (nameTokens "doe-jane") ∧
    normalize_name "Jane  Doe" = normalize_name "doe-jane" :=
  ⟨by decide, C3_normalize_name_invariant.2 "Jane  Doe" "doe-jane" (by decide)⟩

/-- C1: every comparison row the merge produces (at either granularity)
matches the classification rule relative to the two input aggregates: a key
present on both sides gets `difference = round2(invoice - timesheet)` and
status `OK` exactly when that rounded difference is zero (else `VERSCHIL`,
i.e. MISMATCH); a key present only in the timesheet gets status
`ALLEEN IN KLOKLIJST` (ONLY_IN_TIMESHEET) with a blank invoice field and the
timesheet hours rounded to two decimals; symmetrically `ALLEEN IN FACTUUR`
(ONLY_IN_INVOICE) for an invoice-only key. -/
theorem C1_build_rows_classification (f k : WeekAgg) (fd kd : DayAgg) (r rd : CompRow)
    (hr : r ∈ build_rows f k) (hrd : rd ∈ build_rows_daily fd kd) :
    RowSpecAgainst (wget f r.naam r.code) (wget k r.naam r.code) r ∧
    ∀ d, rd.datum = some d →
      RowSpecAgainst (dget fd rd.naam d rd.code) (dget kd rd.naam d rd.code) rd := by
  constructor
  · obtain ⟨name, hn, hrc⟩ := mem_build_rows.mp hr
    obtain ⟨cat, hc, rfl⟩ := mem_rowsForCats.mp hrc
    rw [buildCell_naam, buildCell_code]
    exact buildCell_spec name none cat _ _
  · intro d hd
    obtain ⟨name, hn, date, hdt, hrc⟩ := mem_build_rows_daily.mp hrd
    obtain ⟨cat, hc, rfl⟩ := mem_rowsForCats.mp hrc
    rw [buildCell_datum] at hd
    obtain rfl := Option.some.inj hd
    rw [buildCell_naam, buildCell_code]
    exact buildCell_spec name (some date) cat _ _

/-- Witness for C1 on a concrete mismatching key (8.5 invoice hours versus
8 timesheet hours of T135, weekly and daily). -/
theorem C1_build_rows_classification_witness :
    exRowW ∈ build_rows exFactW exKlokW ∧
    exRowD ∈ build_rows_daily exFactD exKlokD ∧
    (RowSpecAgainst (wget exFactW exRowW.naam exRowW.code)
        (wget exKlokW exRowW.naam exRowW.code) exRowW ∧
      ∀ d, exRowD.datum = some d →
        RowSpecAgainst (dget exFactD exRowD.naam d exRowD.code)
          (dget exKlokD exRowD.naam d exRowD.code) exRowD) :=
  ⟨by decide, by decide,
    C1_build_rows_classification exFactW exKlokW exFactD exKlokD exRowW exRowD
      (by decide) (by decide)⟩

/-- C4: for both granularities, the per-status counters tally exactly the
produced rows (`sum(counts.values()) == len(rows)`), and every
`(name, category[, date])` key present in either input aggregate appears
exactly once among the output rows. -/
theorem C4_merge_counts_and_completeness (f k : WeekAgg) (fd kd : DayAgg)
    (n c nd dd cd : String) :
    sumCounts (countsOf (build_rows f k)) = (build_rows f k).length ∧
    sumCounts (countsOf (build_rows_daily fd kd)) = (build_rows_daily fd kd).length ∧
    ((wget f n c).isSome ∨ (wget k n c).isSome →
      keyCount (build_rows f k) n none c = 1) ∧
    ((dget fd nd dd cd).isSome ∨ (dget kd nd dd cd).isSome →
      keyCount (build_rows_daily fd kd) nd (some dd) cd = 1) :=
  ⟨sumCounts_countsOf _ (build_rows_statuses f k),
    sumCounts_countsOf _ (build_rows_daily_statuses fd kd),
    keyCount_build_rows f k n c,
    keyCount_build_rows_daily fd kd nd dd cd⟩

/-- Witness for C4 on the concrete aggregates: the shared T135 key appears
exactly once weekly and exactly once daily. -/
theorem C4_merge_counts_and_completeness_witness :
    keyCount (build_rows exFactW exKlokW) "doe jane" none "T135" = 1 ∧
    keyCount (build_rows_daily exFactD exKlokD) "doe jane" (some "2025-12-15") "T135" = 1 :=
  ⟨(C4_merge_counts_and_completeness exFactW exKlokW exFactD exKlokD
      "doe jane" "T135" "doe jane" "2025-12-15" "T135").2.2.1 (Or.inl (by decide)),
    (C4_merge_counts_and_completeness exFactW exKlokW exFactD exKlokD
      "doe jane" "T135" "doe jane" "2025-12-15" "T135").2.2.2 (Or.inl (by decide))⟩

/-- C2: the timesheet loader scans rows in order carrying a current-name
state: a non-blank name cell updates the current name; with a blank name cell
the carried name is kept; rows before any name is established contribute
nothing; rows with a blank date cell (summary rows) contribute nothing at
either granularity; all other rows are attributed to the (forward-filled)
current name.  On the spec's example rows, 8 and 4 are both attributed to
"A" and the 999 summary value reaches no total. -/
theorem C2_kloklijst_forward_fill :
    (∀ header st cells, fieldOf header cells "Naam" ≠ "" →
      (kloklijstStep header st cells).1 = some (fieldOf header cells "Naam")) ∧
    (∀ header st cells, fieldOf header cells "Naam" = "" →
      (kloklijstStep header st cells).1 = st.1) ∧
    (∀ header st cells, fieldOf header cells "Naam" = "" → st.1 = none →
      (kloklijstStep header st cells).2 = st.2) ∧
    (∀ header st cells, fieldOf header cells "Datum" = "" →
      (kloklijstStep header st cells).2 = st.2) ∧
    (∀ header st cells cn, st.1 = some cn → fieldOf header cells "Naam" = "" →
      fieldOf header cells "Datum" ≠ "" →
      (kloklijstStep header st cells).2 =
        kloklijstCols header cells (normalize_name cn) st.2) ∧
    (∀ header std cells, fieldOf header cells "Naam" ≠ "" →
      (kloklijstDayStep header std cells).1 = some (fieldOf header cells "Naam")) ∧
    (∀ header std cells, fieldOf header cells "Naam" = "" →
      (kloklijstDayStep header std cells).1 = std.1) ∧
    (∀ header std cells, fieldOf header cells "Naam" = "" → std.1 = none →
      (kloklijstDayStep header std cells).2 = std.2) ∧
    (∀ header std cells, fieldOf header cells "Datum" = "" →
      (kloklijstDayStep header std cells).2 = std.2) ∧
    (∀ header std cells cn, std.1 = some cn → fieldOf header cells "Naam" = "" →
      fieldOf header cells "Datum" ≠ "" →
      (kloklijstDayStep header std cells).2 =
        kloklijstDayCols header cells (normalize_name cn)
          (normalize_date (fieldOf header cells "Datum")) std.2) ∧
    load_kloklijst_hours exC2Table = [("a", [("Norm uren Dag", 12)])] ∧
    load_kloklijst_hours_by_date exC2Table =
      [("a", [("2025-12-15", [("Norm uren Dag", 8)]),
              ("2025-12-16", [("Norm uren Dag", 4)])])] := by
  refine ⟨?_, ?_, ?_, ?_, ?_, ?_, ?_, ?_, ?_, ?_, by decide, by decide⟩
  · intro header st cells h
    unfold kloklijstStep
    rw [if_neg h]
    by_cases hd : fieldOf header cells "Datum" = "" <;> simp [hd]
  · intro header st cells h
    unfold kloklijstStep
    rw [if_pos h]
    cases hcur : st.1 with
    | none => rfl
    | some cn => by_cases hd : fieldOf header cells "Datum" = "" <;> simp [hd]
  · intro header st cells h h0
    unfold kloklijstStep
    rw [if_pos h, h0]
  · intro header st cells h
    unfold kloklijstStep
    cases hcur : (if fieldOf header cells "Naam" = "" then st.1
        else some (fieldOf header cells "Naam")) with
    | none => rfl
    | some cn => simp [h]
  · intro header st cells cn hst h hd
    unfold kloklijstStep
    rw [if_pos h, hst]
    simp [hd]
  · intro header std cells h
    unfold kloklijstDayStep
    rw [if_neg h]
    by_cases hd : fieldOf header cells "Datum" = "" <;> simp [hd]
  · intro header std cells h
    unfold kloklijstDayStep
    rw [if_pos h]
    cases hcur : std.1 with
    | none => rfl
    | some cn => by_cases hd : fieldOf header cells "Datum" = "" <;> simp [hd]
  · intro header std cells h h0
    unfold kloklijstDayStep
    rw [if_pos h, h0]
  · intro header std cells h
    unfold kloklijstDayStep
    cases hcur : (if fieldOf header cells "Naam" = "" then std.1
        else some (fieldOf header cells "Naam")) with
    | none => rfl
    | some cn => simp [h]
  · intro header std cells cn hst h hd
    unfold kloklijstDayStep
    rw [if_pos h, hst]
    simp [hd]

/-- Witness for C2: the name cell "A" updates the state; the summary row
(blank date) leaves both granularities' totals untouched. -/
theorem C2_kloklijst_forward_fill_witness :
    (kloklijstStep ["Naam", "Datum", "Norm uren Dag"] (none, [])
      ["A", "2025-12-15", "8"]).1 = some "A" ∧
    (kloklijstStep ["Naam", "Datum", "Norm uren Dag"] (some "A", [])
      ["", "", "999"]).2 = [] ∧
    (kloklijstDayStep ["Naam", "Datum", "Norm uren Dag"] (some "A", [])
      ["", "", "999"]).2 = [] :=
  ⟨(C2_kloklijst_forward_fill.1 ["Naam", "Datum", "Norm uren Dag"] (none, [])
      ["A", "2025-12-15", "8"] (by decide)).trans (by decide),
   C2_kloklijst_forward_fill.2.2.2.1 ["Naam", "Datum", "Norm uren Dag"]
     (some "A", []) ["", "", "999"] (by decide),
   C2_kloklijst_forward_fill.2.2.2.2.2.2.2.2.1 ["Naam", "Datum", "Norm uren Dag"]
     (some "A", []) ["", "", "999"] (by decide)⟩

theorem kloklijstColStep_none (header cells : List String) (norm n c col : String)
    (hz : ZeroishCell header c cells) (totals : WeekAgg) (h : wget totals n c = none) :
    wget (kloklijstColStep header cells norm totals col) n c = none := by
  unfold kloklijstColStep
  by_cases h0 : fieldOf header cells col = ""
  · simpa [h0] using h
  · rw [if_neg h0]
    cases hp : pyFloat? (replaceChar ',' '.' (fieldOf header cells col)) with
    | none => exact h
    | some v =>
      by_cases hv : v = 0
      · subst hv
        simpa using h
      · by_cases hcol : col = c
        · subst hcol
          rcases hz with hz | hz | hz
          · exact absurd hz h0
          · rw [hz] at hp
            cases hp
          · rw [hz] at hp
            exact absurd (Option.some.inj hp).symm hv
        · have hne := wget_addW_ne totals norm col v n c (Or.inr hcol)
          simp [hv, hne, h]

theorem kloklijstCols_wget_none (header cells : List String) (norm n c : String)
    (hz : ZeroishCell header c cells) :
    ∀ (cols : List String) (totals : WeekAgg), wget totals n c = none →
      wget (cols.foldl (kloklijstColStep header cells norm) totals) n c = none := by
  intro cols
  induction cols with
  | nil => intro totals h; exact h
  | cons col cols ih =>
    intro totals h
    rw [List.foldl_cons]
    exact ih _ (kloklijstColStep_none header cells norm n c col hz totals h)

theorem load_kloklijst_hours_wget_none (t : CsvTable) (n c : String)
    (h : ∀ cells ∈ t.rows, ZeroishCell (t.header.map pyStrip) c cells) :
    wget (load_kloklijst_hours t) n c = none := by
  unfold load_kloklijst_hours
  suffices main : ∀ (rows : List (List String)) (st : Option String × WeekAgg),
      (∀ cells ∈ rows, ZeroishCell (t.header.map pyStrip) c cells) →
      wget st.2 n c = none →
      wget ((rows.foldl (kloklijstStep (t.header.map pyStrip)) st)).2 n c = none by
    exact main t.rows (none, []) h rfl
  intro rows
  induction rows with
  | nil => intro st _ h2; exact h2
  | cons cells rows ih =>
    intro st hall h2
    rw [List.foldl_cons]
    refine ih _ (fun x hx => hall x (List.mem_cons_of_mem _ hx)) ?_
    have hz := hall cells (List.mem_cons_self _ _)
    unfold kloklijstStep
    cases hcur : (if fieldOf (t.header.map pyStrip) cells "Naam" = "" then st.1
        else some (fieldOf (t.header.map pyStrip) cells "Naam")) with
    | none => exact h2
    | some cn =>
      by_cases hd : fieldOf (t.header.map pyStrip) cells "Datum" = ""
      · simpa [hd] using h2
      · have hc := kloklijstCols_wget_none (t.header.map pyStrip) cells
          (normalize_name cn) n c hz KLOKLIJST_HOUR_COLS st.2 h2
        simpa [hd, kloklijstCols] using hc

theorem kloklijstDayColStep_none (header cells : List String) (norm dk n d c col : String)
    (hz : ZeroishCell header c cells) (totals : DayAgg) (h : dget totals n d c = none) :
    dget (kloklijstDayColStep header cells norm dk totals col) n d c = none := by
  unfold kloklijstDayColStep
  by_cases h0 : fieldOf header cells col = ""
  · simpa [h0] using h
  · rw [if_neg h0]
    cases hp : pyFloat? (replaceChar ',' '.' (fieldOf header cells col)) with
    | none => exact h
    | some v =>
      by_cases hv : v = 0
      · subst hv
        simpa using h
      · by_cases hcol : col = c
        · subst hcol
          rcases hz with hz | hz | hz
          · exact absurd hz h0
          · rw [hz] at hp
            cases hp
          · rw [hz] at hp
            exact absurd (Option.some.inj hp).symm hv
        · have hne := dget_addD_ne totals norm dk col v n d c (Or.inr (Or.inr hcol))
          simp [hv, hne, h]

theorem kloklijstDayCols_dget_none (header cells : List String) (norm dk n d c : String)
    (hz : ZeroishCell header c cells) :
    ∀ (cols : List String) (totals : DayAgg), dget totals n d c = none →
      dget (cols.foldl (kloklijstDayColStep header cells norm dk) totals) n d c = none := by
  intro cols
  induction cols with
  | nil => intro totals h; exact h
  | cons col cols ih =>
    intro totals h
    rw [List.foldl_cons]
    exact ih _ (kloklijstDayColStep_none header cells norm dk n d c col hz totals h)

theorem load_kloklijst_by_date_dget_none (t : CsvTable) (n d c : String)
    (h : ∀ cells ∈ t.rows, ZeroishCell (t.header.map pyStrip) c cells) :
    dget (load_kloklijst_hours_by_date t) n d c = none := by
  unfold load_kloklijst_hours_by_date
  suffices main : ∀ (rows : List (List String)) (st : Option String × DayAgg),
      (∀ cells ∈ rows, ZeroishCell (t.header.map pyStrip) c cells) →
      dget st.2 n d c = none →
      dget ((rows.foldl (kloklijstDayStep (t.header.map pyStrip)) st)).2 n d c = none by
    exact main t.rows (none, []) h rfl
  intro rows
  induction rows with
  | nil => intro st _ h2; exact h2
  | cons cells rows ih =>
    intro st hall h2
    rw [List.foldl_cons]
    refine ih _ (fun x hx => hall x (List.mem_cons_of_mem _ hx)) ?_
    have hz := hall cells (List.mem_cons_self _ _)
    unfold kloklijstDayStep
    cases hcur : (if fieldOf (t.header.map pyStrip) cells "Naam" = "" then st.1
        else some (fieldOf (t.header.map pyStrip) cells "Naam")) with
    | none => exact h2
    | some cn =>
      by_cases hd : fieldOf (t.header.map pyStrip) cells "Datum" = ""
      · simpa [hd] using h2
      · have hc := kloklijstDayCols_dget_none (t.header.map pyStrip) cells
          (normalize_name cn) (normalize_date (fieldOf (t.header.map pyStrip) cells "Datum"))
          n d c hz KLOKLIJST_HOUR_COLS st.2 h2
        simpa [hd, kloklijstDayCols] using hc

/-- C5: a timesheet cell parsing to 0 stores nothing (per cell, at both
granularities), and consequently an employee whose every entry in a column is
blank, unparseable, or zero has that column absent from the loader's output —
not present with value zero — both weekly and daily. -/
theorem C5_zero_suppression (t : CsvTable) (n c d : String)
    (h : ∀ cells ∈ t.rows, ZeroishCell (t.header.map pyStrip) c cells) :
    (∀ header cells norm totals col,
      pyFloat? (replaceChar ',' '.' (fieldOf header cells col)) = some 0 →
      kloklijstColStep header cells norm totals col = totals) ∧
    (∀ header cells norm dk totals col,
      pyFloat? (replaceChar ',' '.' (fieldOf header cells col)) = some 0 →
      kloklijstDayColStep header cells norm dk totals col = totals) ∧
    wget (load_kloklijst_hours t) n c = none ∧
    dget (load_kloklijst_hours_by_date t) n d c = none := by
  refine ⟨?_, ?_, load_kloklijst_hours_wget_none t n c h,
    load_kloklijst_by_date_dget_none t n d c h⟩
  · intro header cells norm totals col hp
    unfold kloklijstColStep
    by_cases h0 : fieldOf header cells col = ""
    · rw [if_pos h0]
    · rw [if_neg h0]
      simp [hp]
  · intro header cells norm dk totals col hp
    unfold kloklijstDayColStep
    by_cases h0 : fieldOf header cells col = ""
    · rw [if_pos h0]
    · rw [if_neg h0]
      simp [hp]

/-- Witness for C5: in `exC5Table` every `Norm uren Dag` cell is zero-valued,
so the key is absent from both granularities for "ann". -/
theorem C5_zero_suppression_witness :
    (∀ cells ∈ exC5Table.rows,
      ZeroishCell (exC5Table.header.map pyStrip) "Norm uren Dag" cells) ∧
    wget (load_kloklijst_hours exC5Table) "ann" "Norm uren Dag" = none ∧
    dget (load_kloklijst_hours_by_date exC5Table) "ann" "2025-12-15" "Norm uren Dag" = none :=
  ⟨by decide,
   (C5_zero_suppression exC5Table "ann" "Norm uren Dag" "2025-12-15" (by decide)).2.2.1,
   (C5_zero_suppression exC5Table "ann" "Norm uren Dag" "2025-12-15" (by decide)).2.2.2⟩

/-- C6: the invoice loaders silently skip a row whose required fields (for
the requested granularity) are blank after trimming, or whose hours cell
fails to parse after comma-to-dot substitution; a row that does parse is
accumulated into its key's total (previous total, zero when absent, plus the
parsed value), so repeated keys sum into a single total. -/
theorem C6_factuur_row_policy :
    (∀ header totals cells,
      fieldOf header cells "Naam" = "" ∨ fieldOf header cells "Code toeslag" = "" ∨
        fieldOf header cells "Totaal uren" = "" →
      factuurStep header totals cells = totals) ∧
    (∀ header totals cells,
      pyFloat? (replaceChar ',' '.' (fieldOf header cells "Totaal uren")) = none →
      factuurStep header totals cells = totals) ∧
    (∀ header totals cells v,
      fieldOf header cells "Naam" ≠ "" → fieldOf header cells "Code toeslag" ≠ "" →
      fieldOf header cells "Totaal uren" ≠ "" →
      pyFloat? (replaceChar ',' '.' (fieldOf header cells "Totaal uren")) = some v →
      factuurStep header totals cells =
        addW totals (normalize_name (fieldOf header cells "Naam"))
          (fieldOf header cells "Code toeslag") v) ∧
    (∀ (m : WeekAgg) n c v,
      wget (addW m n c v) n c = some (qadd ((wget m n c).getD 0) v)) ∧
    (∀ header totals cells,
      fieldOf header cells "Naam" = "" ∨ fieldOf header cells "Code toeslag" = "" ∨
        fieldOf header cells "Datum" = "" ∨ fieldOf header cells "Totaal uren" = "" →
      factuurDayStep header totals cells = totals) ∧
    (∀ header totals cells,
      pyFloat? (replaceChar ',' '.' (fieldOf header cells "Totaal uren")) = none →
      factuurDayStep header totals cells = totals) ∧
    (∀ header totals cells v,
      fieldOf header cells "Naam" ≠ "" → fieldOf header cells "Code toeslag" ≠ "" →
      fieldOf header cells "Datum" ≠ "" → fieldOf header cells "Totaal uren" ≠ "" →
      pyFloat? (replaceChar ',' '.' (fieldOf header cells "Totaal uren")) = some v →
      factuurDayStep header totals cells =
        addD totals (normalize_name (fieldOf header cells "Naam"))
          (normalize_date (fieldOf header cells "Datum"))
          (fieldOf header cells "Code toeslag") v) ∧
    (∀ (m : DayAgg) n d c v,
      dget (addD m n d c v) n d c = some (qadd ((dget m n d c).getD 0) v)) := by
  refine ⟨?_, ?_, ?_, fun m n c v => wget_addW_self m n c v, ?_, ?_, ?_,
    fun m n d c v => dget_addD_self m n d c v⟩
  · intro header totals cells h
    simp only [factuurStep]
    rw [if_pos h]
  · intro header totals cells hp
    by_cases hb : fieldOf header cells "Naam" = "" ∨
        fieldOf header cells "Code toeslag" = "" ∨ fieldOf header cells "Totaal uren" = ""
    · simp only [factuurStep]
      rw [if_pos hb]
    · simp only [factuurStep]
      rw [if_neg hb, hp]
  · intro header totals cells v h1 h2 h3 hp
    have hb : ¬(fieldOf header cells "Naam" = "" ∨
        fieldOf header cells "Code toeslag" = "" ∨
        fieldOf header cells "Totaal uren" = "") := by
      simp [h1, h2, h3]
    simp only [factuurStep]
    rw [if_neg hb, hp]
  · intro header totals cells h
    simp only [factuurDayStep]
    rw [if_pos h]
  · intro header totals cells hp
    by_cases hb : fieldOf header cells "Naam" = "" ∨
        fieldOf header cells "Code toeslag" = "" ∨ fieldOf header cells "Datum" = "" ∨
        fieldOf header cells "Totaal uren" = ""
    · simp only [factuurDayStep]
      rw [if_pos hb]
    · simp only [factuurDayStep]
      rw [if_neg hb, hp]
  · intro header totals cells v h1 h2 h3 h4 hp
    have hb : ¬(fieldOf header cells "Naam" = "" ∨
        fieldOf header cells "Code toeslag" = "" ∨ fieldOf header cells "Datum" = "" ∨
        fieldOf header cells "Totaal uren" = "") := by
      simp [h1, h2, h3, h4]
    simp only [factuurDayStep]
    rw [if_neg hb, hp]

/-- Witness for C6: a blank name skips, an unparseable hours cell skips, a
parseable "8,5" accumulates, and accumulation adds to the previous total. -/
theorem C6_factuur_row_policy_witness :
    factuurStep ["Naam", "Code toeslag", "Totaal uren"] [] ["", "T1", "8"] = [] ∧
    factuurStep ["Naam", "Code toeslag", "Totaal uren"] [] ["Jane", "T1", "abc"] = [] ∧
    factuurStep ["Naam", "Code toeslag", "Totaal uren"] [] ["Jane", "T1", "8,5"] =
      addW [] (normalize_name "Jane") "T1" (mkRat 17 2) ∧
    wget (addW exFactW "doe jane" "T135" 8) "doe jane" "T135" =
      some (qadd ((wget exFactW "doe jane" "T135").getD 0) 8) :=
  ⟨C6_factuur_row_policy.1 ["Naam", "Code toeslag", "Totaal uren"] [] ["", "T1", "8"]
      (Or.inl (by decide)),
   C6_factuur_row_policy.2.1 ["Naam", "Code toeslag", "Totaal uren"] []
      ["Jane", "T1", "abc"] (by decide),
   C6_factuur_row_policy.2.2.1 ["Naam", "Code toeslag", "Totaal uren"] []
      ["Jane", "T1", "8,5"] (mkRat 17 2) (by decide) (by decide) (by decide) (by decide),
   C6_factuur_row_policy.2.2.2.1 exFactW "doe jane" "T135" 8⟩

/-- C7: for every filesystem and week id, a missing invoice file makes
`run_validation` fail with `FileNotFoundError` naming that resolved path, and
a present invoice with a missing timesheet file fail naming the timesheet
path; in both cases nothing is written and no result is returned. -/
theorem C7_run_validation_missing_input (fs : FileSys) (week : String) :
    (alookup fs.files (factuurPath week) = none →
      run_validation fs week =
        (Except.error (RunError.fileNotFound
          ("Bestand niet gevonden: " ++ factuurPath week)), [])) ∧
    (∀ t, alookup fs.files (factuurPath week) = some t →
      alookup fs.files (kloklijstPath week) = none →
      run_validation fs week =
        (Except.error (RunError.fileNotFound
          ("Bestand niet gevonden: " ++ kloklijstPath week)), [])) := by
  constructor
  · intro h
    unfold run_validation
    rw [h]
  · intro t h1 h2
    unfold run_validation
    rw [h1, h2]

/-- Witness for C7: an empty filesystem fails on the invoice path; a
filesystem holding only the invoice file fails on the timesheet path. -/
theorem C7_run_validation_missing_input_witness :
    run_validation ⟨[]⟩ "202551" =
      (Except.error (RunError.fileNotFound
        ("Bestand niet gevonden: " ++ factuurPath "202551")), []) ∧
    run_validation ⟨[(factuurPath "202551", exTrimmedFact)]⟩ "202551" =
      (Except.error (RunError.fileNotFound
        ("Bestand niet gevonden: " ++ kloklijstPath "202551")), []) :=
  ⟨(C7_run_validation_missing_input ⟨[]⟩ "202551").1 rfl,
   (C7_run_validation_missing_input ⟨[(factuurPath "202551", exTrimmedFact)]⟩
      "202551").2 exTrimmedFact (by decide) (by decide)⟩

/-- C9: when every weekly row is `OK`, the email body is the fixed
no-discrepancies message parameterized only by the week id; moreover the
body depends only on the week id and the weekly row set, so the daily row
set has no influence on the composed text. -/
theorem C9_all_ok_email (res res2 : ValidationResult)
    (hok : ∀ r ∈ res.rowsWeek, r.status = "OK")
    (hw : res2.week = res.week) (hr : res2.rowsWeek = res.rowsWeek) :
    format_validation_email_body res = noDiscrepancyBody res.week ∧
    format_validation_email_body res2 = format_validation_email_body res := by
  have hfilter : res.rowsWeek.filter (fun r => r.status != "OK") = [] := by
    rw [List.filter_eq_nil_iff]
    intro r hrr
    simp [hok r hrr]
  constructor
  · unfold format_validation_email_body
    rw [hfilter, if_pos rfl]
  · unfold format_validation_email_body
    rw [hw, hr]

/-- Witness for C9: the all-OK result yields the fixed message, and changing
only the daily rows leaves the body unchanged. -/
theorem C9_all_ok_email_witness :
    format_validation_email_body exResultOK = noDiscrepancyBody "202551" ∧
    format_validation_email_body exResultOKAlt = format_validation_email_body exResultOK :=
  ⟨(C9_all_ok_email exResultOK exResultOKAlt (by decide) rfl rfl).1,
   (C9_all_ok_email exResultOK exResultOKAlt (by decide) rfl rfl).2⟩

/-- C10: zero-suppression is per cell, not per accumulated total: +4 and -4
on two dated rows of the same column leave the key present with value 0 in
the weekly loader output — distinguishable from a never-recorded column —
and the merge then emits an only-in-timesheet row for it. -/
theorem C10_cancelling_sum_stored :
    wget (load_kloklijst_hours exC10Table) "ann" "Norm uren Dag" = some 0 ∧
    build_rows [] (load_kloklijst_hours exC10Table) =
      [{ naam := "ann", datum := none, code := "Norm uren Dag", factuur := none,
         kloklijst := some 0, verschil := none, status := "ALLEEN IN KLOKLIJST" }] :=
  ⟨by decide, by decide⟩

theorem trimChars_idem (l : List Char) : trimChars (trimChars l) = trimChars l := by
  unfold trimChars
  have h1 : (List.rdropWhile Char.isWhitespace
      (l.dropWhile Char.isWhitespace)).dropWhile Char.isWhitespace =
      List.rdropWhile Char.isWhitespace (l.dropWhile Char.isWhitespace) := by
    rw [List.dropWhile_eq_self_iff]
    intro hl
    have hpre : List.rdropWhile Char.isWhitespace (l.dropWhile Char.isWhitespace) <+:
        l.dropWhile Char.isWhitespace := List.rdropWhile_prefix _ _
    have hlen : (0 : Nat) < (l.dropWhile Char.isWhitespace).length :=
      Nat.lt_of_lt_of_le hl hpre.length_le
    rw [List.get_eq_getElem, List.IsPrefix.getElem hpre hl]
    have hd := List.dropWhile_get_zero_not Char.isWhitespace l hlen
    simpa [List.get_eq_getElem] using hd
  rw [h1, List.rdropWhile_idempotent]

theorem pyStrip_idem (s : String) : pyStrip (pyStrip s) = pyStrip s :=
  congrArg String.mk (trimChars_idem s.data)

/-- C8 counterexample: the invoice loader does not trim header names — an
invoice file whose header is `" Naam "` produces a different (empty)
aggregate than the same file with the trimmed header `"Naam"`. -/
theorem C8_factuur_header_not_trimmed :
    load_factuur_hours exPaddedFact ≠ load_factuur_hours exTrimmedFact := by
  decide

/-- C8 amended: the timesheet loaders strip their fieldnames before reading
rows, so a timesheet file whose header carries surrounding whitespace
produces the same aggregates (weekly and daily) as the same file with
trimmed headers; the invoice loaders, by contrast, match header names
exactly, without trimming. -/
theorem C8_kloklijst_header_trimming (t : CsvTable) :
    load_kloklijst_hours ⟨t.header.map pyStrip, t.rows⟩ = load_kloklijst_hours t ∧
    load_kloklijst_hours_by_date ⟨t.header.map pyStrip, t.rows⟩ =
      load_kloklijst_hours_by_date t := by
  have hm : (t.header.map pyStrip).map pyStrip = t.header.map pyStrip := by
    rw [List.map_map]
    exact List.map_congr_left fun a _ => pyStrip_idem a
  constructor
  · show (t.rows.foldl (kloklijstStep ((t.header.map pyStrip).map pyStrip)) (none, [])).2 =
      (t.rows.foldl (kloklijstStep (t.header.map pyStrip)) (none, [])).2
    rw [hm]
  · show (t.rows.foldl (kloklijstDayStep ((t.header.map pyStrip).map pyStrip)) (none, [])).2 =
      (t.rows.foldl (kloklijstDayStep (t.header.map pyStrip)) (none, [])).2
    rw [hm]
